import Mathlib

/-!
Verification of the bouncer HTTP gateway's policy plane and request pipeline.

The Rust source is shallowly embedded: HTTP header maps become association
lists of (name, byte-list value) pairs, the async policy chain becomes a fold
over pure functions `Request → PolicyResult`, and fallible operations return
`Except String`.  External library calls (glob matching, database lookups)
are modelled as explicit function parameters.  String primitives are given
executable char-list implementations so that every definition evaluates.
-/

namespace Bouncer

/-! ## String primitives

Pure, kernel-evaluable counterparts of the string operations the source
uses (`to_lowercase`, `starts_with`, `split`, suffix extraction).  Header
names are ASCII, for which `Char.toLower` agrees with Rust lowercasing. -/

/-- Rust `str::to_lowercase` (ASCII range, which covers header names). -/
def strToLower (s : String) : String := String.mk (s.data.map Char.toLower)

/-- Rust `str::starts_with`. -/
def strStartsWith (s p : String) : Bool := p.data.isPrefixOf s.data

/-- Drop the first `n` characters of a string. -/
def strDrop (s : String) (n : Nat) : String := String.mk (s.data.drop n)

/-- Split a character list at every occurrence of `sep` (Rust `str::split`):
pieces may be empty, and a trailing separator yields a trailing empty piece. -/
def splitOnChar (sep : Char) : List Char → List (List Char)
  | [] => [[]]
  | c :: rest =>
    let r := splitOnChar sep rest
    if c == sep then [] :: r
    else
      match r with
      | h :: t => (c :: h) :: t
      | [] => [[c]]

/-- Rust `str::split(sep)` collected into a list. -/
def strSplit (s : String) (sep : Char) : List String :=
  (splitOnChar sep s.data).map String.mk

/-! ## Headers, requests, responses -/

/-- A header value is a byte sequence (`http::HeaderValue`). -/
abbrev HeaderValue := List Nat

/-- UTF-8 encoding of one character (standard 1–4 byte encoding). -/
def utf8EncodeCharBytes (c : Char) : List Nat :=
  let n := c.toNat
  if n < 0x80 then [n]
  else if n < 0x800 then
    [0xC0 ||| (n >>> 6), 0x80 ||| (n &&& 0x3F)]
  else if n < 0x10000 then
    [0xE0 ||| (n >>> 12), 0x80 ||| ((n >>> 6) &&& 0x3F), 0x80 ||| (n &&& 0x3F)]
  else
    [0xF0 ||| (n >>> 18), 0x80 ||| ((n >>> 12) &&& 0x3F),
     0x80 ||| ((n >>> 6) &&& 0x3F), 0x80 ||| (n &&& 0x3F)]

/-- The byte sequence of a string's UTF-8 encoding (`str::as_bytes`). -/
def headerValueOfString (s : String) : HeaderValue :=
  s.data.flatMap utf8EncodeCharBytes

/-- `http`'s visible-ASCII test used by `HeaderValue::to_str`:
a byte is accepted when it is in `32..127` or is a horizontal tab. -/
def isVisibleAscii (b : Nat) : Bool :=
  (32 ≤ b && b < 127) || b == 9

/-- `HeaderValue::to_str`: succeeds exactly when every byte is visible
ASCII (or tab), in which case the bytes are read off as characters.
Note this is stricter than UTF-8 validity: any byte ≥ 128 is rejected. -/
def headerValueToStr? (v : HeaderValue) : Option String :=
  if v.all isVisibleAscii then some (String.mk (v.map Char.ofNat)) else none

/-- An HTTP request as the policy plane sees it: target path and headers.
Header names in an `http::HeaderMap` are stored lowercased. -/
structure Request where
  path : String
  headers : List (String × HeaderValue)
deriving DecidableEq

/-- An HTTP response: status code, headers, body. -/
structure Response where
  status : Nat
  headers : List (String × HeaderValue)
  body : String
deriving DecidableEq

/-- `HeaderMap::get`: the first value stored under a name. -/
def headerGet (headers : List (String × HeaderValue)) (name : String) :
    Option HeaderValue :=
  (headers.find? (fun h => h.1 == name)).map (fun h => h.2)

/-! ## Policy chain middleware (`policy/middleware.rs`) -/

/-- `PolicyResult` from `policy/traits.rs`. -/
inductive PolicyResult where
  | Continue (req : Request)
  | Terminate (resp : Response)
deriving DecidableEq

/-- A policy's `process` operation (the `async` is modelled away:
one request is processed sequentially through the chain). -/
abbrev Pol := Request → PolicyResult

/-- `clear_bouncer_headers` from `policy/middleware.rs`: collect the names
whose lowercasing starts with `x-bouncer-`, then remove every header
carrying one of those names. -/
def clear_bouncer_headers (headers : List (String × HeaderValue)) :
    List (String × HeaderValue) :=
  let bouncer_headers :=
    (headers.filter (fun h => strStartsWith (strToLower h.1) "x-bouncer-")).map
      (fun h => h.1)
  headers.filter (fun h => !(bouncer_headers.contains h.1))

/-- The request as it stands after the middleware's header scrubbing. -/
def scrubRequest (request : Request) : Request :=
  { request with headers := clear_bouncer_headers request.headers }

/-- The policy loop of `PolicyService::call`: run the chain in order,
threading the (possibly mutated) request; the first `Terminate` wins. -/
def processChain : List Pol → Request → Response ⊕ Request
  | [], req => Sum.inr req
  | p :: ps, req =>
    match p req with
    | PolicyResult.Continue r => processChain ps r
    | PolicyResult.Terminate resp => Sum.inl resp

/-- `PolicyService::call`: scrub the protected headers, run the chain, and
either return a policy's terminating response or hand the final request to
the inner (proxy) service. -/
def policyServiceCall (policies : List Pol) (inner : Request → Response)
    (request : Request) : Response :=
  match processChain policies (scrubRequest request) with
  | Sum.inl resp => resp
  | Sum.inr r => inner r

/-- What happens after the first policy has produced its result: a
terminating response is returned as-is, a continued request runs through
the remaining chain and then the inner service. -/
def runRest (ps : List Pol) (inner : Request → Response) :
    PolicyResult → Response
  | PolicyResult.Terminate resp => resp
  | PolicyResult.Continue r =>
    match processChain ps r with
    | Sum.inl resp => resp
    | Sum.inr r' => inner r'

/-! ## Proxy handler header forwarding (`server.rs`, `handler`) -/

/-- `HeaderMap::insert`: replace any existing values under `name` with the
single given value. -/
def hmInsert (headers : List (String × HeaderValue)) (name : String)
    (value : HeaderValue) : List (String × HeaderValue) :=
  headers.filter (fun h => !(h.1 == name)) ++ [(name, value)]

/-- The header-copy loop of `handler`: skip every header whose lowercased
name starts with `bouncer`, inserting the rest into a fresh outbound map
(`insert` keeps the last value for a repeated name). -/
def copyForwardHeaders (inbound : List (String × HeaderValue)) :
    List (String × HeaderValue) :=
  inbound.foldl
    (fun acc h =>
      if strStartsWith (strToLower h.1) "bouncer" then acc
      else hmInsert acc h.1 h.2)
    []

/-- `http`'s byte validity test for constructing a `HeaderValue`
(`HeaderValue::try_from` / `from_bytes`): any byte ≥ 32 except DEL (127),
or horizontal tab.  Unlike `to_str`, bytes ≥ 128 are accepted. -/
def isValidHeaderByte (b : Nat) : Bool :=
  (32 ≤ b && b != 127) || b == 9

/-- `HeaderValue::try_from` on a byte sequence: the value is the bytes
themselves when every byte is valid, and the conversion fails otherwise. -/
def headerValueTryFrom? (bytes : List Nat) : Option HeaderValue :=
  if bytes.all isValidHeaderByte then some bytes else none

/-- The outbound header map built by `handler`: copy the non-`bouncer*`
inbound headers, then insert `bouncer-token` with the gateway's token —
but only when `HeaderValue::try_from(bouncer_token.as_bytes())` succeeds
(`if let Ok(token_value) = …`); on failure the header is simply absent. -/
def outboundHeaders (inbound : List (String × HeaderValue))
    (bouncer_token : String) : List (String × HeaderValue) :=
  match headerValueTryFrom? (headerValueOfString bouncer_token) with
  | some token_value =>
    hmInsert (copyForwardHeaders inbound) "bouncer-token" token_value
  | none => copyForwardHeaders inbound

/-- The last value a name carries in an inbound header list (what survives
repeated `insert`s for that name). -/
def lookupLast : List (String × HeaderValue) → String → Option HeaderValue
  | [], _ => none
  | h :: t, n =>
    match lookupLast t n with
    | some v => some v
    | none => if h.1 = n then some h.2 else none

/-- The last inbound value for `n` among headers that pass the outbound
`bouncer*` scrub. -/
def lastForwarded : List (String × HeaderValue) → String → Option HeaderValue
  | [], _ => none
  | h :: t, n =>
    match lastForwarded t n with
    | some v => some v
    | none =>
      if !(strStartsWith (strToLower h.1) "bouncer") && h.1 == n then some h.2
      else none

/-- The gateway's internal-trust token from `server.rs`: the
`BOUNCER_TOKEN` environment variable, or the insecure dev default
`secret` when unset. -/
def bouncer_token_of_env (v : Option String) : String :=
  match v with
  | some token => token
  | none => "secret"

/-! ## Bearer authentication policy
(`policy/providers/bouncer/auth/bearer/v1.rs`, the factory registered by
`register_builtin_policies`) -/

/-- `BearerAuthConfig`. -/
structure BearerAuthConfig where
  token : Option String
  realm : Option String
  db_provider : Option String
  token_prefix : Option String
  token_validation_query : Option String
  collection : Option String
deriving DecidableEq

/-- `DatabaseError` (`database/errors.rs`), as far as the policy sees it. -/
inductive DatabaseError where
  | ConnectionError (msg : String)
  | QueryError (msg : String)
  | ConversionError (msg : String)
deriving DecidableEq

/-- A `TokenDatabaseAdapter` is its `get_role_from_token` operation:
`lookup(token)` yielding a role, a miss, or a backend error. -/
abbrev TokenDatabaseAdapter := String → Except DatabaseError (Option String)

/-- The `WWW-Authenticate` challenge value the bearer policy emits. -/
def wwwAuthenticateValue (realm : Option String) : String :=
  "Bearer realm=\"" ++ realm.getD "api" ++ "\""

/-- `BearerAuthPolicy::process` from `auth/bearer/v1.rs`.  The database
adapter of a store-backed instance is passed as a function.  Note that on a
successful store lookup the request is returned unchanged — the source has
`Ok(Some(_role)) => { // TODO: Add role to request extensions … true }`
and never writes an `x-bouncer-role` header. -/
def BearerAuthPolicy.process (config : BearerAuthConfig)
    (db_adapter : Option TokenDatabaseAdapter) (request : Request) :
    PolicyResult :=
  match headerGet request.headers "authorization" with
  | none =>
    PolicyResult.Terminate
      { status := 401
        headers :=
          [("www-authenticate", headerValueOfString (wwwAuthenticateValue config.realm))]
        body := "Unauthorized: Bearer token required" }
  | some auth_header =>
    match headerValueToStr? auth_header with
    | none =>
      PolicyResult.Terminate
        { status := 401, headers := []
          body := "Invalid Authorization header format" }
    | some auth_str =>
      match (if strStartsWith auth_str "Bearer " then some (strDrop auth_str 7)
             else none) with
      | none =>
        PolicyResult.Terminate
          { status := 401
            headers :=
              [("www-authenticate", headerValueOfString (wwwAuthenticateValue config.realm))]
            body := "Unauthorized: Invalid Bearer token format" }
      | some token =>
        let is_authenticated :=
          match db_adapter with
          | some adapter =>
            match adapter token with
            | Except.ok (some _role) => true
            | Except.ok none => false
            | Except.error _ => false
          | none =>
            match config.token with
            | some static_token => token == static_token
            | none => false
        if is_authenticated then PolicyResult.Continue request
        else
          PolicyResult.Terminate
            { status := 401
              headers :=
                [("www-authenticate", headerValueOfString (wwwAuthenticateValue config.realm))]
              body := "Unauthorized: Invalid Bearer token" }

/-! ## RBAC authorization policy
(`policy/providers/bouncer/authorization/rbac/v1.rs`) -/

/-- `RbacConfig`: route glob patterns mapped to allowed roles (the `HashMap`
is modelled as an association list). -/
structure RbacConfig where
  route_roles : List (String × List String)

/-- `RbacPolicy::process`.  Glob matching (`glob::Pattern::matches`, an
external crate) is passed in as `glob_matches pattern path`; patterns were
validated at construction, so compilation never falls back. -/
def RbacPolicy.process (config : RbacConfig)
    (glob_matches : String → String → Bool) (request : Request) : PolicyResult :=
  let path := request.path
  match headerGet request.headers "x-bouncer-role" with
  | none =>
    PolicyResult.Terminate
      { status := 401, headers := [], body := "No role header found" }
  | some value =>
    match headerValueToStr? value with
    | none =>
      PolicyResult.Terminate
        { status := 401, headers := [], body := "Invalid role header" }
    | some role =>
      let has_access :=
        config.route_roles.any
          (fun entry => glob_matches entry.1 path && entry.2.contains role)
      if !has_access then
        PolicyResult.Terminate
          { status := 403, headers := [], body := "Access denied" }
      else PolicyResult.Continue request

/-- `RbacPolicyFactory::validate_config`: at least one route, and every
glob must compile (compilation success is supplied by `pattern_ok`). -/
def RbacPolicyFactory.validate_config (config : RbacConfig)
    (pattern_ok : String → Bool) : Except String Unit :=
  if config.route_roles.isEmpty then
    Except.error "At least one route role mapping is required"
  else if config.route_roles.all (fun entry => pattern_ok entry.1) then
    Except.ok ()
  else Except.error "Invalid route pattern"

/-! ## Logging policy (`policy/providers/logging.rs`) -/

/-- `LoggingConfig`. -/
structure LoggingConfig where
  log_level : String
  include_headers : Bool
deriving DecidableEq

/-- `LoggingPolicy::validate_config`: the level must be one of the four
known names (compared lowercased). -/
def LoggingPolicy.validate_config (config : LoggingConfig) :
    Except String Unit :=
  let valid_levels := ["debug", "info", "warn", "error"]
  if valid_levels.contains (strToLower config.log_level) then Except.ok ()
  else Except.error ("Invalid log level: " ++ config.log_level)

/-- `LoggingPolicy` construction (`PolicyFactory::new` for the logging
policy): always succeeds, storing the config. -/
def LoggingPolicy.new (config : LoggingConfig) : Except String LoggingConfig :=
  Except.ok config

/-! ## Policy registry (`policy/registry.rs`) -/

/-- Untyped configuration tree (`serde_json::Value`). -/
inductive Json where
  | null
  | bool (b : Bool)
  | num (n : Int)
  | str (s : String)
  | arr (items : List Json)
  | obj (fields : List (String × Json))

/-- Object field lookup on a JSON value. -/
def Json.getField? : Json → String → Option Json
  | Json.obj fields, key => (fields.find? (fun f => f.1 == key)).map (fun f => f.2)
  | _, _ => none

/-- `serde_json::from_value::<LoggingConfig>`: an object with a string
`log_level` and a boolean `include_headers` (unknown fields ignored, as
serde does by default). -/
def parseLoggingConfig (j : Json) : Except String LoggingConfig :=
  match j.getField? "log_level", j.getField? "include_headers" with
  | some (Json.str level), some (Json.bool flag) => Except.ok ⟨level, flag⟩
  | _, _ => Except.error "invalid type: LoggingConfig"

/-- `PolicyConfig` from `config.rs`. -/
structure PolicyConfig where
  id : String
  provider : String
  parameters : Json

/-- A constructed `Box<dyn Policy>` as the registry observes it: whether it
participates in the request chain.  (Admin-route collection cannot fail and
is elided.) -/
structure PolicyInstance where
  processes_requests : Bool
deriving DecidableEq

/-- A type-erased factory closure as stored by the registry. -/
abbrev ErasedFactory := Json → Except String PolicyInstance

/-- The registry's `factories` map (`HashMap<String, …>` modelled as an
association list where the most recent insertion shadows older ones). -/
abbrev Registry := List (String × ErasedFactory)

/-- `HashMap::get` on the factories map. -/
def lookupFactory (registry : Registry) (provider : String) :
    Option ErasedFactory :=
  (registry.find? (fun e => e.1 == provider)).map (fun e => e.2)

/-- `PolicyRegistry::register_policy`: store the factory closure under
`F::policy_id()`.  No validation of the identifier is performed. -/
def registerPolicy (registry : Registry) (policy_id : String)
    (factory : ErasedFactory) : Registry :=
  (policy_id, factory) :: registry

/-- The closure `register_policy` builds from a typed factory `F`:
deserialize the opaque parameters into `F::Config`, then run `F::new` and
box the result.  `validate_config` is not consulted. -/
def mkErasedFactory {Config PolicyType : Type}
    (parse : Json → Except String Config)
    (new : Config → Except String PolicyType)
    (box : PolicyType → PolicyInstance) : ErasedFactory :=
  fun config =>
    match parse config with
    | Except.error e => Except.error ("Failed to parse config: " ++ e)
    | Except.ok parsed =>
      match new parsed with
      | Except.ok policy => Except.ok (box policy)
      | Except.error e => Except.error e

/-- `PolicyRegistry::build_policy_chain`: walk the declared policy list in
order; a missing factory is fatal, a factory error propagates, and an
instance joins the chain only if it processes requests.  (The admin router
accumulated alongside cannot fail and is elided.) -/
def buildPolicyChain (registry : Registry) :
    List PolicyConfig → Except String (List PolicyInstance)
  | [] => Except.ok []
  | policy_config :: rest =>
    match lookupFactory registry policy_config.provider with
    | none =>
      Except.error ("Policy not found for provider ID: " ++ policy_config.provider)
    | some factory =>
      match factory policy_config.parameters with
      | Except.error e => Except.error e
      | Except.ok policy =>
        match buildPolicyChain registry rest with
        | Except.error e => Except.error e
        | Except.ok chain =>
          Except.ok (if policy.processes_requests then policy :: chain else chain)

/-- The identifier shape check from the commented-out
`split_policy_provider` in `registry.rs` (the only version-format rule the
repository states): at least four `/`-separated segments and a last segment
beginning with `v`. -/
def isVersionedPolicyId (provider : String) : Bool :=
  let parts := strSplit provider '/'
  decide (parts.length ≥ 4) &&
    (match parts.getLast? with
     | some last => strStartsWith last "v"
     | none => false)

/-- `auth::bearer::policy_id_with_version` (panics on an unsupported
version, modelled as `none`). -/
def auth_bearer_policy_id_with_version (version : String) : Option String :=
  if version == "v1" then some "@bouncer/auth/bearer/v1"
  else if version == "v1-managed" then some "@bouncer/auth/bearer/v1-managed"
  else none

/-- `authorization::rbac::policy_id_with_version`. -/
def rbac_policy_id_with_version (version : String) : Option String :=
  if version == "v1" then some "@bouncer/authorization/rbac/v1"
  else none

/-- `BearerAuthPolicyFactory::policy_id()` (only `v1` is registered). -/
def bearerAuthPolicyId : String :=
  match auth_bearer_policy_id_with_version "v1" with
  | some id => id
  | none => ""

/-- `RbacPolicyFactory::policy_id()`. -/
def rbacPolicyId : String :=
  match rbac_policy_id_with_version "v1" with
  | some id => id
  | none => ""

/-- `register_builtin_policies` from `server.rs`: the only registration it
performs is the bearer `v1` factory (`// Add other built-in policies
here`).  The bearer factory's closure is irrelevant to registry shape and
is a parameter. -/
def registerBuiltinPolicies (bearerFactory : ErasedFactory)
    (registry : Registry) : Registry :=
  registerPolicy registry bearerAuthPolicyId bearerFactory

/-! ## Version gate (`config.rs`, `validate_version`) -/

/-- `validate_version(config_version, current_version)`: both versions must
have three `.`-separated segments; the major of the config version must be
concrete and equal to the current major; minor and patch must be `*` or
equal to the current segment.  (The mismatch error strings are abbreviated
relative to the source's formatted messages; only `Ok`/`Err` is at
stake.) -/
def validate_version (config_version current_version : String) :
    Except String Unit :=
  match strSplit current_version '.' with
  | [cur0, cur1, cur2] =>
    match strSplit config_version '.' with
    | [cfg0, cfg1, cfg2] =>
      if cfg0 = "*" then
        Except.error
          "Wildcard major version is not allowed. Use a specific major version number."
      else if cfg0 ≠ cur0 then
        Except.error ("Major version mismatch: config requires " ++ cfg0 ++
          ", but current is " ++ cur0)
      else if cfg1 ≠ "*" ∧ cfg1 ≠ cur1 then
        Except.error "Minor version mismatch"
      else if cfg2 ≠ "*" ∧ cfg2 ≠ cur2 then
        Except.error "Patch version mismatch"
      else Except.ok ()
    | _ => Except.error ("Invalid config version format: " ++ config_version)
  | _ => Except.error ("Invalid current version format: " ++ current_version)

/-! ## Helper lemmas -/

theorem processChain_append (l₁ l₂ : List Pol) (req : Request) :
    processChain (l₁ ++ l₂) req =
      (match processChain l₁ req with
       | Sum.inl resp => Sum.inl resp
       | Sum.inr r => processChain l₂ r) := by
  induction l₁ generalizing req with
  | nil => rfl
  | cons p ps ih =>
    cases hp : p req with
    | Continue r =>
      have h1 : processChain ((p :: ps) ++ l₂) req = processChain (ps ++ l₂) r := by
        show processChain (p :: (ps ++ l₂)) req = _
        simp only [processChain, hp]
      have h2 : processChain (p :: ps) req = processChain ps r := by
        simp only [processChain, hp]
      rw [h1, h2, ih]
    | Terminate resp =>
      have h1 : processChain ((p :: ps) ++ l₂) req = Sum.inl resp := by
        show processChain (p :: (ps ++ l₂)) req = _
        simp only [processChain, hp]
      have h2 : processChain (p :: ps) req = Sum.inl resp := by
        simp only [processChain, hp]
      rw [h1, h2]

theorem find?_filter_ne (m : List (String × HeaderValue)) (k n : String)
    (hne : n ≠ k) :
    (m.filter (fun h => !(h.1 == k))).find? (fun h => h.1 == n) =
      m.find? (fun h => h.1 == n) := by
  induction m with
  | nil => rfl
  | cons x xs ih =>
    by_cases hx : x.1 = k
    · have hkn : (k == n) = false := by
        simpa using fun hh => hne hh.symm
      simp [List.filter, List.find?, hx, hkn, ih]
    · have hxk : (x.1 == k) = false := by simpa using hx
      by_cases hn : x.1 = n
      · have hnk : (n == k) = false := by rw [← hn]; exact hxk
        simp [List.filter, List.find?, hn, hnk]
      · have hxn : (x.1 == n) = false := by simpa using hn
        simp [List.filter, List.find?, hxk, hxn, ih]

theorem find?_filter_self (m : List (String × HeaderValue)) (k : String) :
    (m.filter (fun h => !(h.1 == k))).find? (fun h => h.1 == k) = none := by
  induction m with
  | nil => rfl
  | cons x xs ih =>
    by_cases hx : x.1 = k
    · simp [List.filter, hx, ih]
    · have hxk : (x.1 == k) = false := by simpa using hx
      simp [List.filter, List.find?, hxk, ih]

theorem headerGet_hmInsert (m : List (String × HeaderValue)) (k : String)
    (v : HeaderValue) (n : String) :
    headerGet (hmInsert m k v) n = if n = k then some v else headerGet m n := by
  by_cases h : n = k
  · subst h
    simp [headerGet, hmInsert, List.find?_append, find?_filter_self,
      List.find?]
  · have hkn : (k == n) = false := by
      simpa using fun hh => h hh.symm
    simp [headerGet, hmInsert, List.find?_append, find?_filter_ne m k n h,
      List.find?, h, hkn]

theorem headerGet_copy_foldl (l acc : List (String × HeaderValue)) (n : String) :
    headerGet
      (List.foldl
        (fun acc h =>
          if strStartsWith (strToLower h.1) "bouncer" then acc
          else hmInsert acc h.1 h.2) acc l) n =
      (match lastForwarded l n with
       | some v => some v
       | none => headerGet acc n) := by
  induction l generalizing acc with
  | nil => rfl
  | cons h t ih =>
    simp only [List.foldl]
    rw [ih]
    by_cases hp : strStartsWith (strToLower h.1) "bouncer"
    · cases hl : lastForwarded t n <;> simp [lastForwarded, hl, hp]
    · by_cases hn : h.1 = n
      · have hpn : strStartsWith (strToLower n) "bouncer" = false := by
          rw [← hn]; simpa using hp
        cases hl : lastForwarded t n <;>
          simp [lastForwarded, hl, hp, hn, hpn, headerGet_hmInsert]
      · have hne : n ≠ h.1 := fun hh => hn hh.symm
        have hb : (h.1 == n) = false := by simpa using hn
        cases hl : lastForwarded t n <;>
          simp [lastForwarded, hl, hp, hb, headerGet_hmInsert, hne]

theorem lastForwarded_eq_lookupLast (l : List (String × HeaderValue))
    (n : String) (hn : strStartsWith (strToLower n) "bouncer" = false) :
    lastForwarded l n = lookupLast l n := by
  induction l with
  | nil => rfl
  | cons h t ih =>
    simp only [lastForwarded, lookupLast, ih]
    cases lookupLast t n with
    | some v => rfl
    | none =>
      by_cases hh : h.1 = n
      · simp [hh, hn]
      · have hb : (h.1 == n) = false := by simpa using hh
        simp [hh, hb]

theorem lastForwarded_bouncer_none (l : List (String × HeaderValue))
    (n : String) (hn : strStartsWith (strToLower n) "bouncer" = true) :
    lastForwarded l n = none := by
  induction l with
  | nil => rfl
  | cons h t ih =>
    simp only [lastForwarded, ih]
    by_cases hh : h.1 = n
    · simp [hh, hn]
    · have hb : (h.1 == n) = false := by simpa using hh
      simp [hb]

theorem mem_hmInsert (m : List (String × HeaderValue)) (k : String)
    (v : HeaderValue) (x : String × HeaderValue) :
    x ∈ hmInsert m k v → x ∈ m ∨ x = (k, v) := by
  intro hx
  rcases List.mem_append.mp hx with hl | hr
  · exact Or.inl (List.mem_of_mem_filter hl)
  · simp only [List.mem_singleton] at hr
    exact Or.inr hr

theorem mem_copy_foldl (l acc : List (String × HeaderValue))
    (x : String × HeaderValue) :
    x ∈ List.foldl
        (fun acc h =>
          if strStartsWith (strToLower h.1) "bouncer" then acc
          else hmInsert acc h.1 h.2) acc l →
      x ∈ acc ∨ (x ∈ l ∧ strStartsWith (strToLower x.1) "bouncer" = false) := by
  induction l generalizing acc with
  | nil => intro hx; exact Or.inl hx
  | cons h t ih =>
    intro hx
    simp only [List.foldl] at hx
    rcases ih _ hx with hstep | ⟨hmem, hpass⟩
    · by_cases hp : strStartsWith (strToLower h.1) "bouncer"
      · rw [if_pos hp] at hstep
        exact Or.inl hstep
      · rw [if_neg hp] at hstep
        rcases mem_hmInsert _ _ _ _ hstep with hacc | hx2
        · exact Or.inl hacc
        · refine Or.inr ⟨?_, ?_⟩
          · simp [hx2]
          · rw [hx2]
            simpa using hp
    · exact Or.inr ⟨List.mem_cons_of_mem _ hmem, hpass⟩

/-! ## Claim theorems -/

/-- C1: if the policies before `p` all continue (yielding request `r`) and
`p` returns `Terminate resp`, then `PolicyService::call` returns exactly
`resp`, whatever the later policies and the inner proxy handler are (so
neither is invoked); and if the whole chain continues, the final mutated
request is passed to the inner handler. -/
theorem policy_chain_short_circuit_and_fallthrough :
    (∀ (pre post : List Pol) (p : Pol) (inner : Request → Response)
        (req r : Request) (resp : Response),
        processChain pre (scrubRequest req) = Sum.inr r →
        p r = PolicyResult.Terminate resp →
        policyServiceCall (pre ++ p :: post) inner req = resp) ∧
    (∀ (chain : List Pol) (inner : Request → Response) (req r : Request),
        processChain chain (scrubRequest req) = Sum.inr r →
        policyServiceCall chain inner req = inner r) := by
  constructor
  · intro pre post p inner req r resp hpre hp
    unfold policyServiceCall
    rw [processChain_append, hpre]
    simp only [processChain, hp]
  · intro chain inner req r hchain
    unfold policyServiceCall
    rw [hchain]

/-- Witness for C1: a concrete chain whose first policy terminates with
status 401 yields that response; a continuing chain reaches the inner
handler. -/
theorem policy_chain_short_circuit_witness :
    policyServiceCall
        ([] ++ (fun _ => PolicyResult.Terminate ⟨401, [], "stop"⟩) ::
          [fun r => PolicyResult.Continue r])
        (fun _ => ⟨200, [], "ok"⟩) ⟨"/", []⟩ = ⟨401, [], "stop"⟩ ∧
    policyServiceCall [fun r => PolicyResult.Continue r]
        (fun _ => ⟨200, [], "ok"⟩) ⟨"/", []⟩ = ⟨200, [], "ok"⟩ :=
  ⟨policy_chain_short_circuit_and_fallthrough.1 []
      [fun r => PolicyResult.Continue r]
      (fun _ => PolicyResult.Terminate ⟨401, [], "stop"⟩)
      (fun _ => ⟨200, [], "ok"⟩) ⟨"/", []⟩ ⟨"/", []⟩ ⟨401, [], "stop"⟩ rfl rfl,
   policy_chain_short_circuit_and_fallthrough.2
      [fun r => PolicyResult.Continue r]
      (fun _ => ⟨200, [], "ok"⟩) ⟨"/", []⟩ ⟨"/", []⟩ rfl⟩

/-- C2: the middleware removes every header whose lowercased name starts
with `x-bouncer-` before the first policy runs: no header surviving
`clear_bouncer_headers` has that prefix, and the first policy of any chain
is invoked on exactly the scrubbed request. -/
theorem middleware_scrubs_x_bouncer_before_first_policy :
    ∀ (req : Request),
      ((clear_bouncer_headers req.headers).all
          (fun h => !(strStartsWith (strToLower h.1) "x-bouncer-"))) = true ∧
      ∀ (p : Pol) (ps : List Pol) (inner : Request → Response),
        policyServiceCall (p :: ps) inner req =
          runRest ps inner (p (scrubRequest req)) := by
  intro req
  constructor
  · rw [List.all_eq_true]
    intro x hx
    by_contra hcon
    have hstart : strStartsWith (strToLower x.1) "x-bouncer-" = true := by
      revert hcon
      cases strStartsWith (strToLower x.1) "x-bouncer-" <;> simp
    unfold clear_bouncer_headers at hx
    obtain ⟨hmem, hpass⟩ := List.mem_filter.mp hx
    have hinmap : x.1 ∈ (req.headers.filter
        (fun h => strStartsWith (strToLower h.1) "x-bouncer-")).map
          (fun h => h.1) :=
      List.mem_map.mpr ⟨x, List.mem_filter.mpr ⟨hmem, hstart⟩, rfl⟩
    simp [List.contains, List.elem_iff, hinmap] at hpass
  · intro p ps inner
    cases hp : p (scrubRequest req) with
    | Continue r =>
      simp only [policyServiceCall, processChain, hp, runRest]
    | Terminate resp =>
      simp only [policyServiceCall, processChain, hp, runRest]

/-- C3 (divergence): in store-backed mode (`db_provider` set), a lookup
returning `Some "admin"` yields `Continue` with the request **unchanged**
— no `x-bouncer-role` header is injected (the source has
`// TODO: Add role to request extensions` instead); a miss and a backend
error both terminate with a 401 whose fixed body does not expose the
backend error. -/
theorem bearer_store_mode_does_not_inject_role :
    BearerAuthPolicy.process
        ⟨none, none, some "postgres", none, some "q", none⟩
        (some (fun _ => Except.ok (some "admin")))
        ⟨"/", [("authorization", headerValueOfString "Bearer t")]⟩ =
      PolicyResult.Continue
        ⟨"/", [("authorization", headerValueOfString "Bearer t")]⟩ ∧
    headerGet [("authorization", headerValueOfString "Bearer t")]
        "x-bouncer-role" = none ∧
    BearerAuthPolicy.process
        ⟨none, none, some "postgres", none, some "q", none⟩
        (some (fun _ => Except.ok none))
        ⟨"/", [("authorization", headerValueOfString "Bearer t")]⟩ =
      PolicyResult.Terminate
        ⟨401,
         [("www-authenticate", headerValueOfString "Bearer realm=\"api\"")],
         "Unauthorized: Invalid Bearer token"⟩ ∧
    BearerAuthPolicy.process
        ⟨none, none, some "postgres", none, some "q", none⟩
        (some (fun _ => Except.error (DatabaseError.QueryError "backend down")))
        ⟨"/", [("authorization", headerValueOfString "Bearer t")]⟩ =
      PolicyResult.Terminate
        ⟨401,
         [("www-authenticate", headerValueOfString "Bearer realm=\"api\"")],
         "Unauthorized: Invalid Bearer token"⟩ := by
  refine ⟨rfl, rfl, rfl, rfl⟩

/-- C4 (counterexample): with `BOUNCER_TOKEN` containing a control byte
(`"a\\nb"`), `HeaderValue::try_from` fails and the program forwards the
request with no `bouncer-token` header at all — the original claim's
unconditional presence of the token header is false of the program. -/
theorem invalid_token_omits_bouncer_token_header :
    headerValueOfString "a\nb" = [97, 10, 98] ∧
    isValidHeaderByte 10 = false ∧
    headerGet (outboundHeaders [("accept", [42])] "a\nb") "bouncer-token" =
      none := by
  exact ⟨by decide, by decide, by decide⟩

/-- C4 (amended): every header on the outbound upstream request whose
lowercased name starts with `bouncer` is exactly the gateway-inserted
`bouncer-token` carrying the configured token — so a client-supplied
`bouncer-token` (or any `bouncer*` header) never reaches the upstream;
when the configured token is a valid header value the outbound request
carries `bouncer-token` equal to it, and when the conversion fails the
header is absent. -/
theorem outbound_scrub_and_token_injection :
    (∀ (inbound : List (String × HeaderValue)) (token : String)
        (h : String × HeaderValue),
        h ∈ outboundHeaders inbound token →
        strStartsWith (strToLower h.1) "bouncer" = true →
        h = ("bouncer-token", headerValueOfString token)) ∧
    (∀ (inbound : List (String × HeaderValue)) (token : String),
        (headerValueOfString token).all isValidHeaderByte = true →
        headerGet (outboundHeaders inbound token) "bouncer-token" =
          some (headerValueOfString token)) ∧
    (∀ (inbound : List (String × HeaderValue)) (token : String),
        (headerValueOfString token).all isValidHeaderByte = false →
        headerGet (outboundHeaders inbound token) "bouncer-token" = none) ∧
    bouncer_token_of_env none = "secret" := by
  have hcopy_scrub : ∀ (inbound : List (String × HeaderValue))
      (h : String × HeaderValue), h ∈ copyForwardHeaders inbound →
      strStartsWith (strToLower h.1) "bouncer" = false := by
    intro inbound h hcopy
    unfold copyForwardHeaders at hcopy
    rcases mem_copy_foldl inbound [] h hcopy with habs | ⟨_, hpass⟩
    · simp at habs
    · exact hpass
  have hcopy_none : ∀ (inbound : List (String × HeaderValue)),
      headerGet (copyForwardHeaders inbound) "bouncer-token" = none := by
    intro inbound
    unfold copyForwardHeaders
    rw [headerGet_copy_foldl,
      lastForwarded_bouncer_none inbound "bouncer-token" (by decide)]
    rfl
  refine ⟨?_, ?_, ?_, rfl⟩
  · intro inbound token h hmem hpref
    unfold outboundHeaders at hmem
    cases htf : headerValueTryFrom? (headerValueOfString token) with
    | some token_value =>
      rw [htf] at hmem
      have hval : token_value = headerValueOfString token := by
        unfold headerValueTryFrom? at htf
        by_cases hall : (headerValueOfString token).all isValidHeaderByte
        · rw [if_pos hall] at htf
          exact (Option.some.injEq _ _ ▸ htf).symm
        · rw [if_neg hall] at htf
          cases htf
      rcases mem_hmInsert _ _ _ _ hmem with hcopy | heq
      · have := hcopy_scrub inbound h hcopy
        rw [hpref] at this; cases this
      · rw [heq, hval]
    | none =>
      rw [htf] at hmem
      have := hcopy_scrub inbound h hmem
      rw [hpref] at this; cases this
  · intro inbound token hall
    unfold outboundHeaders
    have htf : headerValueTryFrom? (headerValueOfString token) =
        some (headerValueOfString token) := by
      unfold headerValueTryFrom?
      rw [if_pos hall]
    rw [htf, headerGet_hmInsert]
    simp
  · intro inbound token hall
    unfold outboundHeaders
    have htf : headerValueTryFrom? (headerValueOfString token) = none := by
      unfold headerValueTryFrom?
      rw [hall]
      rfl
    rw [htf]
    exact hcopy_none inbound

/-- Witness for the amended C4: a valid token is injected past a request
smuggling `x-bouncer-role` and `bouncer-evil` headers; an invalid token
leaves the header absent. -/
theorem outbound_scrub_witness :
    (("bouncer-token", headerValueOfString "tok") ∈
        outboundHeaders [("x-bouncer-role", [97]), ("bouncer-evil", [66])]
          "tok" ∧
      strStartsWith (strToLower "bouncer-token") "bouncer" = true ∧
      ("bouncer-token", headerValueOfString "tok") =
        ("bouncer-token", headerValueOfString "tok")) ∧
    ((headerValueOfString "tok").all isValidHeaderByte = true ∧
      headerGet
          (outboundHeaders [("x-bouncer-role", [97]), ("bouncer-evil", [66])]
            "tok") "bouncer-token" = some (headerValueOfString "tok")) ∧
    ((headerValueOfString "x\ny").all isValidHeaderByte = false ∧
      headerGet (outboundHeaders [("accept", [42])] "x\ny")
        "bouncer-token" = none) :=
  ⟨⟨by decide, by decide,
      outbound_scrub_and_token_injection.1
        [("x-bouncer-role", [97]), ("bouncer-evil", [66])] "tok"
        ("bouncer-token", headerValueOfString "tok") (by decide) (by decide)⟩,
   ⟨by decide,
      outbound_scrub_and_token_injection.2.1
        [("x-bouncer-role", [97]), ("bouncer-evil", [66])] "tok"
        (by decide)⟩,
   ⟨by decide,
      outbound_scrub_and_token_injection.2.2.1 [("accept", [42])] "x\ny"
        (by decide)⟩⟩

/-- C10: after the policy chain, a header name reaches the outbound
upstream request iff its lowercased name does not start with `bouncer`
(the outbound scrub does not test `x-bouncer-`), with its final value
preserved; in particular an `x-bouncer-role` value set by a policy is
forwarded unmodified. -/
theorem outbound_copy_iff_not_bouncer_prefixed :
    (∀ (inbound : List (String × HeaderValue)) (token n : String),
        n ≠ "bouncer-token" →
        headerGet (outboundHeaders inbound token) n =
          (if strStartsWith (strToLower n) "bouncer" then none
           else lookupLast inbound n)) ∧
    (∀ (inbound : List (String × HeaderValue)) (token : String)
        (v : HeaderValue),
        lookupLast inbound "x-bouncer-role" = some v →
        headerGet (outboundHeaders inbound token) "x-bouncer-role" =
          some v) := by
  have key : ∀ (inbound : List (String × HeaderValue)) (token n : String),
      n ≠ "bouncer-token" →
      headerGet (outboundHeaders inbound token) n =
        (if strStartsWith (strToLower n) "bouncer" then none
         else lookupLast inbound n) := by
    intro inbound token n hn
    have hcopy : headerGet (copyForwardHeaders inbound) n =
        (if strStartsWith (strToLower n) "bouncer" then none
         else lookupLast inbound n) := by
      unfold copyForwardHeaders
      rw [headerGet_copy_foldl]
      by_cases hb : strStartsWith (strToLower n) "bouncer" = true
      · rw [lastForwarded_bouncer_none inbound n hb, if_pos hb]
        rfl
      · rw [lastForwarded_eq_lookupLast inbound n (by simpa using hb),
          if_neg hb]
        cases lookupLast inbound n <;> rfl
    unfold outboundHeaders
    cases htf : headerValueTryFrom? (headerValueOfString token) with
    | some token_value => rw [headerGet_hmInsert, if_neg hn, hcopy]
    | none => rw [hcopy]
  refine ⟨key, ?_⟩
  intro inbound token v hv
  have h1 := key inbound token "x-bouncer-role" (by decide)
  rw [h1, if_neg (by decide), hv]

/-- Witness for C10: `accept` is copied with its value, and a
policy-written `x-bouncer-role` survives to the upstream. -/
theorem outbound_copy_witness :
    ("accept" ≠ "bouncer-token" ∧
      headerGet
          (outboundHeaders [("x-bouncer-role", [97]), ("accept", [50])] "t")
          "accept" =
        (if strStartsWith (strToLower "accept") "bouncer" then none
         else lookupLast [("x-bouncer-role", [97]), ("accept", [50])]
           "accept")) ∧
    (lookupLast [("x-bouncer-role", [97]), ("accept", [50])]
        "x-bouncer-role" = some [97] ∧
      headerGet
          (outboundHeaders [("x-bouncer-role", [97]), ("accept", [50])] "t")
          "x-bouncer-role" = some [97]) :=
  ⟨⟨by decide,
      outbound_copy_iff_not_bouncer_prefixed.1
        [("x-bouncer-role", [97]), ("accept", [50])] "t" "accept"
        (by decide)⟩,
   ⟨by decide,
      outbound_copy_iff_not_bouncer_prefixed.2
        [("x-bouncer-role", [97]), ("accept", [50])] "t" [97] (by decide)⟩⟩

/-- C5 (counterexample): `@bouncer/auth/bearer` lacks a version segment,
yet registering a factory under it is accepted (the factory is found
afterwards) and building a chain with it as provider succeeds — the
`split_policy_provider` validator is commented out in `registry.rs`. -/
theorem unversioned_policy_id_accepted :
    isVersionedPolicyId "@bouncer/auth/bearer" = false ∧
    (lookupFactory
        (registerPolicy [] "@bouncer/auth/bearer"
          (fun _ => Except.ok ⟨true⟩))
        "@bouncer/auth/bearer").isSome = true ∧
    (buildPolicyChain
        (registerPolicy [] "@bouncer/auth/bearer"
          (fun _ => Except.ok ⟨true⟩))
        [⟨"a", "@bouncer/auth/bearer", Json.null⟩]).isOk = true := by
  refine ⟨by decide, rfl, rfl⟩

/-- C5 (amended): the registry performs no identifier-shape validation:
`register_policy` stores a factory under any identifier, version segment
or not, and `build_policy_chain` succeeds for such a provider whenever
its factory succeeds; an unversioned provider fails only when no factory
is registered under it. -/
theorem registry_accepts_unversioned_ids :
    ∀ (provider : String) (factory : ErasedFactory) (registry : Registry),
      isVersionedPolicyId provider = false →
      lookupFactory (registerPolicy registry provider factory) provider =
        some factory ∧
      (∀ (cid : String) (params : Json) (inst : PolicyInstance),
        factory params = Except.ok inst →
        (buildPolicyChain (registerPolicy registry provider factory)
            [⟨cid, provider, params⟩]).isOk = true) ∧
      lookupFactory [] provider = none := by
  intro provider factory registry _
  have hfind : lookupFactory (registerPolicy registry provider factory)
      provider = some factory := by
    simp [lookupFactory, registerPolicy, List.find?]
  refine ⟨hfind, ?_, rfl⟩
  intro cid params inst hfac
  simp [buildPolicyChain, hfind, hfac, Except.isOk, Except.toBool]

/-- Witness for the amended C5 at the concrete unversioned id `@x/y/z`. -/
theorem registry_accepts_unversioned_ids_witness :
    isVersionedPolicyId "@x/y/z" = false ∧
    lookupFactory (registerPolicy [] "@x/y/z" (fun _ => Except.ok ⟨true⟩))
        "@x/y/z" = some (fun _ => Except.ok ⟨true⟩) ∧
    (buildPolicyChain (registerPolicy [] "@x/y/z"
          (fun _ => Except.ok ⟨true⟩))
        [⟨"c", "@x/y/z", Json.null⟩]).isOk = true :=
  ⟨by decide,
   (registry_accepts_unversioned_ids "@x/y/z" (fun _ => Except.ok ⟨true⟩) []
      (by decide)).1,
   (registry_accepts_unversioned_ids "@x/y/z" (fun _ => Except.ok ⟨true⟩) []
      (by decide)).2.1 "c" Json.null ⟨true⟩ rfl⟩

/-- C6: `register_builtin_policies` registers only the bearer `v1`
factory; no factory exists for `@bouncer/authorization/rbac/v1`, so
building a chain listing the RBAC provider fails with exactly the
unknown-provider ("Policy not found") error, whatever the bearer factory
closure is. -/
theorem rbac_not_registered_at_startup :
    ∀ (bearerFactory : ErasedFactory),
      rbacPolicyId = "@bouncer/authorization/rbac/v1" ∧
      lookupFactory (registerBuiltinPolicies bearerFactory [])
        rbacPolicyId = none ∧
      buildPolicyChain (registerBuiltinPolicies bearerFactory [])
          [⟨"rbac", rbacPolicyId, Json.null⟩] =
        Except.error
          ("Policy not found for provider ID: " ++ rbacPolicyId) := by
  intro bearerFactory
  have hne : (bearerAuthPolicyId == rbacPolicyId) = false := by decide
  have hnone : lookupFactory (registerBuiltinPolicies bearerFactory [])
      rbacPolicyId = none := by
    simp [lookupFactory, registerBuiltinPolicies, registerPolicy,
      List.find?, hne]
  refine ⟨rfl, hnone, ?_⟩
  simp [buildPolicyChain, hnone]

/-- C7 (counterexample): with the logging factory registered, parameters
whose `log_level` is `bogus` fail `validate_config`, yet
`build_policy_chain` succeeds: the registry's closure only deserializes
and runs `new` (which for the logging policy always succeeds) and never
consults `validate_config`. -/
theorem build_chain_ignores_validate_config :
    (buildPolicyChain
        (registerPolicy [] "logging"
          (mkErasedFactory parseLoggingConfig LoggingPolicy.new
            (fun _ => ⟨true⟩)))
        [⟨"logging", "logging",
          Json.obj [("log_level", Json.str "bogus"),
                    ("include_headers", Json.bool false)]⟩]).isOk = true ∧
    parseLoggingConfig
        (Json.obj [("log_level", Json.str "bogus"),
                   ("include_headers", Json.bool false)]) =
      Except.ok ⟨"bogus", false⟩ ∧
    LoggingPolicy.validate_config ⟨"bogus", false⟩ =
      Except.error "Invalid log level: bogus" := by
  refine ⟨rfl, rfl, rfl⟩

/-- C7 (amended): for a factory registered from `(parse, new)`,
`build_policy_chain` on the single entry naming it succeeds iff the
parameters deserialize and `F::new` succeeds on the result —
`validate_config` plays no role in chain building. -/
theorem build_chain_succeeds_iff_parse_and_new :
    ∀ {Config PolicyType : Type} (parse : Json → Except String Config)
      (new : Config → Except String PolicyType)
      (box : PolicyType → PolicyInstance) (provider cid : String)
      (params : Json) (registry : Registry),
      (buildPolicyChain
          (registerPolicy registry provider (mkErasedFactory parse new box))
          [⟨cid, provider, params⟩]).isOk = true ↔
        ∃ c, parse params = Except.ok c ∧ (new c).isOk = true := by
  intro Config PolicyType parse new box provider cid params registry
  have hfind : lookupFactory
      (registerPolicy registry provider (mkErasedFactory parse new box))
      provider = some (mkErasedFactory parse new box) := by
    simp [lookupFactory, registerPolicy, List.find?]
  simp only [buildPolicyChain, hfind]
  cases hp : parse params with
  | error e => simp [mkErasedFactory, hp, Except.isOk, Except.toBool]
  | ok c =>
    cases hn : new c with
    | error e => simp [mkErasedFactory, hp, hn, Except.isOk, Except.toBool]
    | ok pt => simp [mkErasedFactory, hp, hn, Except.isOk, Except.toBool]

/-- C8 (amended): the RBAC policy terminates with 401 when the
`x-bouncer-role` header is missing or its value fails
`HeaderValue::to_str` (any byte outside visible ASCII — stricter than
UTF-8 validity); otherwise it continues iff some `(pattern, roles)` entry
has its glob matching the request path and the role among its roles, and
terminates with 403 when no entry grants access. -/
theorem rbac_process_characterization :
    ∀ (config : RbacConfig) (glob_matches : String → String → Bool)
      (req : Request),
      (headerGet req.headers "x-bouncer-role" = none →
        RbacPolicy.process config glob_matches req =
          PolicyResult.Terminate ⟨401, [], "No role header found"⟩) ∧
      (∀ v, headerGet req.headers "x-bouncer-role" = some v →
        headerValueToStr? v = none →
        RbacPolicy.process config glob_matches req =
          PolicyResult.Terminate ⟨401, [], "Invalid role header"⟩) ∧
      (∀ v role, headerGet req.headers "x-bouncer-role" = some v →
        headerValueToStr? v = some role →
        ((RbacPolicy.process config glob_matches req =
            PolicyResult.Continue req ↔
          ∃ entry ∈ config.route_roles,
            glob_matches entry.1 req.path = true ∧ role ∈ entry.2) ∧
         (RbacPolicy.process config glob_matches req ≠
            PolicyResult.Continue req →
          RbacPolicy.process config glob_matches req =
            PolicyResult.Terminate ⟨403, [], "Access denied"⟩))) := by
  intro config glob_matches req
  refine ⟨?_, ?_, ?_⟩
  · intro h
    simp [RbacPolicy.process, h]
  · intro v hv hs
    simp [RbacPolicy.process, hv, hs]
  · intro v role hv hs
    have hbody : RbacPolicy.process config glob_matches req =
        (if !(config.route_roles.any
            (fun entry => glob_matches entry.1 req.path &&
              entry.2.contains role)) then
          PolicyResult.Terminate ⟨403, [], "Access denied"⟩
        else PolicyResult.Continue req) := by
      simp only [RbacPolicy.process, hv, hs]
    cases hA : config.route_roles.any
        (fun entry => glob_matches entry.1 req.path &&
          entry.2.contains role) with
    | false =>
      have hterm : RbacPolicy.process config glob_matches req =
          PolicyResult.Terminate ⟨403, [], "Access denied"⟩ := by
        rw [hbody, hA]; rfl
      refine ⟨⟨fun hcon => ?_, fun hex => ?_⟩, fun _ => hterm⟩
      · rw [hterm] at hcon
        exact PolicyResult.noConfusion hcon
      · exfalso
        obtain ⟨entry, hentry, hmatch, hrole⟩ := hex
        have hane : config.route_roles.any
            (fun entry => glob_matches entry.1 req.path &&
              entry.2.contains role) = true :=
          List.any_eq_true.mpr ⟨entry, hentry, by
            rw [Bool.and_eq_true]
            exact ⟨hmatch, by simp [List.contains, List.elem_iff, hrole]⟩⟩
        rw [hA] at hane
        exact Bool.noConfusion hane
    | true =>
      have hcont : RbacPolicy.process config glob_matches req =
          PolicyResult.Continue req := by
        rw [hbody, hA]; rfl
      refine ⟨⟨fun _ => ?_, fun _ => hcont⟩, fun hne => absurd hcont hne⟩
      obtain ⟨entry, hentry, hpred⟩ := List.any_eq_true.mp hA
      rw [Bool.and_eq_true] at hpred
      exact ⟨entry, hentry, hpred.1, by
        simpa [List.contains, List.elem_iff] using hpred.2⟩

/-- C8 (counterexample): a present `x-bouncer-role` whose value is the
valid UTF-8 encoding of `é`, with a config granting role `é` on every
path, is rejected with 401 — `to_str` fails on the non-ASCII bytes even
though they are valid UTF-8, where the claim requires `Continue`. -/
theorem rbac_rejects_valid_utf8_non_ascii_role :
    RbacPolicy.process ⟨[("*", ["é"])]⟩ (fun _ _ => true)
        ⟨"/a", [("x-bouncer-role", headerValueOfString "é")]⟩ =
      PolicyResult.Terminate ⟨401, [], "Invalid role header"⟩ ∧
    headerValueOfString "é" = [195, 169] ∧
    ((fun _ _ => true) : String → String → Bool) "*" "/a" = true ∧
    "é" ∈ ["é"] := by
  exact ⟨rfl, by decide, rfl, by decide⟩

/-- Witness for the amended C8: a visible-ASCII role matching a
configured entry continues. -/
theorem rbac_process_witness :
    headerGet [("x-bouncer-role", headerValueOfString "admin")]
        "x-bouncer-role" = some (headerValueOfString "admin") ∧
    headerValueToStr? (headerValueOfString "admin") = some "admin" ∧
    RbacPolicy.process ⟨[("/a", ["admin"])]⟩ (fun p path => p == path)
        ⟨"/a", [("x-bouncer-role", headerValueOfString "admin")]⟩ =
      PolicyResult.Continue
        ⟨"/a", [("x-bouncer-role", headerValueOfString "admin")]⟩ :=
  ⟨by decide, by decide,
    ((rbac_process_characterization ⟨[("/a", ["admin"])]⟩
        (fun p path => p == path)
        ⟨"/a", [("x-bouncer-role", headerValueOfString "admin")]⟩).2.2
      (headerValueOfString "admin") "admin" (by decide) (by decide)).1.mpr
      ⟨("/a", ["admin"]), by decide, by decide, by decide⟩⟩

/-- C9: on three-segment versions `validate_version` returns `Ok` exactly
when the config major is concrete and equals the current major and each
lower segment is a wildcard or equal; hence it is reflexive on any
well-formed version (whose major, per the version rule, is concrete), and
`0.*.*` accepts every `0.X.Y`. -/
theorem validate_version_characterization :
    (∀ (cfg cur c0 c1 c2 u0 u1 u2 : String),
        strSplit cfg '.' = [c0, c1, c2] →
        strSplit cur '.' = [u0, u1, u2] →
        (validate_version cfg cur = Except.ok () ↔
          (c0 ≠ "*" ∧ c0 = u0 ∧ (c1 = "*" ∨ c1 = u1) ∧
            (c2 = "*" ∨ c2 = u2)))) ∧
    (∀ (v a b c : String), strSplit v '.' = [a, b, c] → a ≠ "*" →
        validate_version v v = Except.ok ()) ∧
    (∀ (cur x y : String), strSplit cur '.' = ["0", x, y] →
        validate_version "0.*.*" cur = Except.ok ()) := by
  have main : ∀ (cfg cur c0 c1 c2 u0 u1 u2 : String),
      strSplit cfg '.' = [c0, c1, c2] →
      strSplit cur '.' = [u0, u1, u2] →
      (validate_version cfg cur = Except.ok () ↔
        (c0 ≠ "*" ∧ c0 = u0 ∧ (c1 = "*" ∨ c1 = u1) ∧
          (c2 = "*" ∨ c2 = u2))) := by
    intro cfg cur c0 c1 c2 u0 u1 u2 hcfg hcur
    by_cases h1 : c0 = "*"
    · simp [validate_version, hcfg, hcur, h1]
    · by_cases h2 : c0 = u0
      · by_cases h3 : c1 = "*"
        · by_cases h4 : c2 = "*"
          · simp [validate_version, hcfg, hcur, h1, h2, h3, h4]
          · by_cases h5 : c2 = u2
            · simp [validate_version, hcfg, hcur, h1, h2, h3, h4, h5]
            · simp [validate_version, hcfg, hcur, h1, h2, h3, h4, h5,
                (h2 ▸ h1 : ¬ u0 = "*")]
        · by_cases h4 : c1 = u1
          · by_cases h5 : c2 = "*"
            · simp [validate_version, hcfg, hcur, h1, h2, h3, h4, h5]
            · by_cases h6 : c2 = u2
              · simp [validate_version, hcfg, hcur, h1, h2, h3, h4, h5, h6]
              · simp [validate_version, hcfg, hcur, h1, h2, h3, h4, h5, h6,
                  (h2 ▸ h1 : ¬ u0 = "*")]
          · simp [validate_version, hcfg, hcur, h1, h2, h3, h4,
              (h2 ▸ h1 : ¬ u0 = "*")]
      · simp [validate_version, hcfg, hcur, h1, h2]
  refine ⟨main, ?_, ?_⟩
  · intro v a b c hv ha
    exact (main v v a b c a b c hv hv).mpr
      ⟨ha, rfl, Or.inr rfl, Or.inr rfl⟩
  · intro cur x y hcur
    exact (main "0.*.*" cur "0" "*" "*" "0" x y (by decide) hcur).mpr
      ⟨by decide, rfl, Or.inl rfl, Or.inl rfl⟩

/-- Witness for C9: reflexivity at `1.2.3`, the wildcard form at
`0.*.*` vs `0.7.9`, and the characterization at a minor mismatch. -/
theorem validate_version_witness :
    validate_version "1.2.3" "1.2.3" = Except.ok () ∧
    validate_version "0.*.*" "0.7.9" = Except.ok () ∧
    ¬ (validate_version "1.2.3" "1.9.3" = Except.ok ()) :=
  ⟨validate_version_characterization.2.1 "1.2.3" "1" "2" "3" (by decide)
      (by decide),
   validate_version_characterization.2.2 "0.7.9" "7" "9" (by decide),
   fun h =>
    (by decide :
      ¬ ("1" ≠ "*" ∧ "1" = "1" ∧ ("2" = "*" ∨ "2" = "9") ∧
          ("3" = "*" ∨ "3" = "3")))
      ((validate_version_characterization.1 "1.2.3" "1.9.3" "1" "2" "3"
          "1" "9" "3" (by decide) (by decide)).mp h)⟩

end Bouncer
